import Mathlib

/-!
Shallow embedding of the WhatsApp auto-bot backend's rate limiter
(`RateLimiter` class) and of the typing-delay helpers
(`generateTypingDelay` in utils, `calculateTypingDelay` in the handler).

Time is passed explicitly (the source reads `Date.now()`); `Math.floor`
of a real division is `Int.fdiv`; `Math.random()` draws are explicit
rational parameters in `[0,1)`; the JavaScript `Map`s are association
lists; the external `sendFunction` (which may throw) is a boolean
success oracle, and the drain additionally reports the list of entries
whose send succeeded, which in the source is the sequence of successful
`sendFunction` invocations.
-/

/-- Rate limit configuration: the `this.limits` record of the source. -/
structure Limits where
  messagesPerMinute : Int
  messagesPerHour : Int
  burstLimit : Int
  deriving DecidableEq

/-- Per-user token bucket, exactly the object built by `createNewBucket`. -/
structure Bucket where
  userId : String
  minuteTokens : Int
  minuteRefillTime : Int
  hourTokens : Int
  hourRefillTime : Int
  burstTokens : Int
  createdAt : Int
  lastActivity : Int
  totalRequests : Int
  blockedRequests : Int
  deriving DecidableEq

/-- An entry of a per-user message queue: `queueMessage` pushes
`{...messageData, queuedAt, retryCount: 0}`; the opaque message data is
modelled as a string payload. -/
structure QueueEntry where
  payload : String
  queuedAt : Int
  retryCount : Int
  deriving DecidableEq

/-- The `RateLimiter` instance state: the active limits plus the two maps
`userBuckets` and `messageQueues` (JavaScript `Map`s, modelled as
association lists with unique keys). -/
structure RateLimiter where
  limits : Limits
  userBuckets : List (String × Bucket)
  messageQueues : List (String × List QueueEntry)
  deriving DecidableEq

/-- `Map.set`: replace the binding of `k` if present, else append it. -/
def mapSet {α : Type} (m : List (String × α)) (k : String) (v : α) :
    List (String × α) :=
  match m with
  | [] => [(k, v)]
  | p :: rest => if p.1 == k then (k, v) :: rest else p :: mapSet rest k v

/-- `Map.delete`: drop the binding of `k`. -/
def mapDelete {α : Type} (m : List (String × α)) (k : String) :
    List (String × α) :=
  m.filter (fun p => !(p.1 == k))

/-- The constructor's initial `this.limits`:
`{messagesPerMinute: 2, messagesPerHour: 20, burstLimit: 3}`. -/
def initLimits : Limits :=
  { messagesPerMinute := 2, messagesPerHour := 20, burstLimit := 3 }

/-- A freshly constructed `RateLimiter`: default limits, empty maps. -/
def initRateLimiter : RateLimiter :=
  { limits := initLimits, userBuckets := [], messageQueues := [] }

/-- `createNewBucket(userId)` at time `now = Date.now()`. -/
def createNewBucket (limits : Limits) (userId : String) (now : Int) : Bucket :=
  { userId := userId
    minuteTokens := limits.messagesPerMinute
    minuteRefillTime := now
    hourTokens := limits.messagesPerHour
    hourRefillTime := now
    burstTokens := limits.burstLimit
    createdAt := now
    lastActivity := now
    totalRequests := 0
    blockedRequests := 0 }

/-- `refillBucket(bucket)` at time `now`: add `floor(elapsed minutes)`
minute tokens capped at the ceiling, `floor(elapsed hours) * messagesPerHour`
hour tokens capped at the ceiling, and `floor(elapsedMinutes / 2)` burst
tokens (only while below the burst ceiling and at least one minute
elapsed). -/
def refillBucket (limits : Limits) (now : Int) (b : Bucket) : Bucket :=
  let minutesElapsed := Int.fdiv (now - b.minuteRefillTime) (60 * 1000)
  let b1 :=
    if minutesElapsed > 0 then
      { b with
        minuteTokens := min limits.messagesPerMinute (b.minuteTokens + minutesElapsed)
        minuteRefillTime := now }
    else b
  let hoursElapsed := Int.fdiv (now - b.hourRefillTime) (60 * 60 * 1000)
  let b2 :=
    if hoursElapsed > 0 then
      { b1 with
        hourTokens := min limits.messagesPerHour (b1.hourTokens + hoursElapsed * limits.messagesPerHour)
        hourRefillTime := now }
    else b1
  if b2.burstTokens < limits.burstLimit ∧ minutesElapsed > 0 then
    { b2 with burstTokens := min limits.burstLimit (b2.burstTokens + Int.fdiv minutesElapsed 2) }
  else b2

/-- `consumeToken(bucket)`: bump `totalRequests`/`lastActivity`; admit via a
burst token when available, otherwise require both a minute and an hour
token (incrementing `blockedRequests` on denial). Returns the admission
decision together with the mutated bucket. -/
def consumeToken (now : Int) (b : Bucket) : Bool × Bucket :=
  let b0 := { b with totalRequests := b.totalRequests + 1, lastActivity := now }
  if b0.burstTokens > 0 then
    (true, { b0 with burstTokens := b0.burstTokens - 1 })
  else if b0.minuteTokens ≤ 0 then
    (false, { b0 with blockedRequests := b0.blockedRequests + 1 })
  else if b0.hourTokens ≤ 0 then
    (false, { b0 with blockedRequests := b0.blockedRequests + 1 })
  else
    (true, { b0 with minuteTokens := b0.minuteTokens - 1, hourTokens := b0.hourTokens - 1 })

/-- `getUserBucket(userId)`: lazily create the bucket, refill it in place,
and return it. The refilled bucket is visible in the map afterwards
(the source mutates the stored object). -/
def getUserBucket (rl : RateLimiter) (userId : String) (now : Int) :
    Bucket × RateLimiter :=
  let b0 :=
    match List.lookup userId rl.userBuckets with
    | some b => b
    | none => createNewBucket rl.limits userId now
  let b := refillBucket rl.limits now b0
  (b, { rl with userBuckets := mapSet rl.userBuckets userId b })

/-- `checkLimit(userId)`: `consumeToken(getUserBucket(userId))`. -/
def checkLimit (rl : RateLimiter) (userId : String) (now : Int) :
    Bool × RateLimiter :=
  let g := getUserBucket rl userId now
  let c := consumeToken now g.1
  (c.1, { g.2 with userBuckets := mapSet g.2.userBuckets userId c.2 })

/-- `queueMessage(userId, messageData)`: at capacity (10) drop the oldest
entry (`queue.shift()`), then push the new entry with `retryCount: 0`. -/
def queueMessage (rl : RateLimiter) (userId : String) (payload : String)
    (now : Int) : RateLimiter :=
  let queue := (List.lookup userId rl.messageQueues).getD []
  let queue1 := if queue.length ≥ 10 then queue.tail else queue
  let queue2 := queue1 ++ [{ payload := payload, queuedAt := now, retryCount := 0 }]
  { rl with messageQueues := mapSet rl.messageQueues userId queue2 }

/-- The loop body of `processMessageQueue`: walk the queue front to back;
on admission attempt the send (success removes the entry, failure bumps
`retryCount` and drops the entry once it reaches 3); on denial stop,
leaving this entry and the rest untouched. Returns
`(successfully sent entries, remaining queue, limiter state)`. -/
def drainLoop (userId : String) (send : QueueEntry → Bool) (now : Int) :
    RateLimiter → List QueueEntry →
    List QueueEntry × List QueueEntry × RateLimiter
  | rl, [] => ([], [], rl)
  | rl, e :: rest =>
    let c := checkLimit rl userId now
    if c.1 then
      if send e then
        let r := drainLoop userId send now c.2 rest
        (e :: r.1, r.2.1, r.2.2)
      else
        let r := drainLoop userId send now c.2 rest
        if e.retryCount + 1 ≥ 3 then (r.1, r.2.1, r.2.2)
        else (r.1, { e with retryCount := e.retryCount + 1 } :: r.2.1, r.2.2)
    else ([], e :: rest, c.2)

/-- `processMessageQueue(userId, sendFunction)`: no-op when the user has no
(or an empty) queue; otherwise run the drain loop, store the surviving
entries back, and delete the map entry when the queue emptied. The first
component lists the entries whose send succeeded, in send order. -/
def processMessageQueue (rl : RateLimiter) (userId : String)
    (send : QueueEntry → Bool) (now : Int) :
    List QueueEntry × RateLimiter :=
  match List.lookup userId rl.messageQueues with
  | none => ([], rl)
  | some q =>
    if q.isEmpty then ([], rl)
    else
      let r := drainLoop userId send now rl q
      if r.2.1.isEmpty then
        (r.1, { r.2.2 with messageQueues := mapDelete r.2.2.messageQueues userId })
      else
        (r.1, { r.2.2 with messageQueues := mapSet r.2.2.messageQueues userId r.2.1 })

/-- The snapshot object returned by `getUserStatus`. -/
structure UserStatus where
  minuteTokens : Int
  hourTokens : Int
  burstTokens : Int
  queueSize : Nat
  totalRequests : Int
  blockedRequests : Int
  lastActivity : Int
  createdAt : Int
  canSend : Bool
  deriving DecidableEq

/-- `getUserStatus(userId)`: refill via `getUserBucket`, read the snapshot
fields, then evaluate `canSend: this.checkLimit(userId)` last — which,
as in the source, runs the full consume path. -/
def getUserStatus (rl : RateLimiter) (userId : String) (now : Int) :
    UserStatus × RateLimiter :=
  let g := getUserBucket rl userId now
  let b := g.1
  let queue := (List.lookup userId g.2.messageQueues).getD []
  let c := checkLimit g.2 userId now
  ({ minuteTokens := b.minuteTokens
     hourTokens := b.hourTokens
     burstTokens := b.burstTokens
     queueSize := queue.length
     totalRequests := b.totalRequests
     blockedRequests := b.blockedRequests
     lastActivity := b.lastActivity
     createdAt := b.createdAt
     canSend := c.1 }, c.2)

/-- `resetUserLimits(userId)`: delete both the bucket and the queue. -/
def resetUserLimits (rl : RateLimiter) (userId : String) : RateLimiter :=
  { rl with
    userBuckets := mapDelete rl.userBuckets userId
    messageQueues := mapDelete rl.messageQueues userId }

/-- `updateLimits(newLimits)`: replace the active limits (the source
spreads `newLimits` over `this.limits`; all in-repo callers pass every
field, so the merge is a wholesale replacement). -/
def updateLimits (rl : RateLimiter) (newLimits : Limits) : RateLimiter :=
  { rl with limits := newLimits }

/-- `adaptiveLimits(serverLoad)`: load above 0.8 installs the reduced
limits, below 0.4 the increased ones, otherwise no change. -/
def adaptiveLimits (rl : RateLimiter) (serverLoad : ℚ) : RateLimiter :=
  if serverLoad > 4 / 5 then
    updateLimits rl { messagesPerMinute := 1, messagesPerHour := 15, burstLimit := 2 }
  else if serverLoad < 2 / 5 then
    updateLimits rl { messagesPerMinute := 3, messagesPerHour := 30, burstLimit := 4 }
  else rl

/-- `enableEmergencyMode()`. -/
def enableEmergencyMode (rl : RateLimiter) : RateLimiter :=
  updateLimits rl { messagesPerMinute := 1, messagesPerHour := 5, burstLimit := 1 }

/-- `disableEmergencyMode()`. -/
def disableEmergencyMode (rl : RateLimiter) : RateLimiter :=
  updateLimits rl { messagesPerMinute := 2, messagesPerHour := 20, burstLimit := 3 }

/-- `generateTypingDelay(message)` from `src/utils.js`, with the two
`Math.random()` draws `r1` (typing-speed jitter) and `r2` (thinking
time) made explicit and the message abstracted by its length. -/
def generateTypingDelay (len : Nat) (r1 r2 : ℚ) : Int :=
  let baseDelay : ℚ := 500
  let charDelay : ℚ := 35
  let randomFactor : ℚ := 3 / 10
  let baseTypingTime : ℚ := (len : ℚ) * charDelay
  let randomMultiplier : ℚ := 1 + (r1 - 1 / 2) * randomFactor
  let typingTime : ℚ := baseTypingTime * randomMultiplier
  let thinkingTime : ℚ := baseDelay + r2 * 1000
  let totalDelay : ℚ := min (max (typingTime + thinkingTime) 1000) 8000
  Int.floor totalDelay

/-- `calculateTypingDelay(message)` from `src/whatsapp-handler.js`, with
`this.baseTypingDelay = 2000`, `this.typingDelayPerChar = 45`, and the
single `Math.random()` draw `r` explicit. -/
def calculateTypingDelay (len : Nat) (r : ℚ) : ℚ :=
  let baseDelay : ℚ := 2000
  let charDelay : ℚ := (len : ℚ) * 45
  let randomFactor : ℚ := 1 / 2 + r
  let totalDelay : ℚ := (baseDelay + charDelay) * randomFactor
  max 2000 (min 8000 totalDelay)

/-- The operations a client can perform on the limiter state
(the ones named by the token-bound invariant). -/
inductive RLOp where
  | check (u : String) (t : Int)
  | refillOp (u : String) (t : Int)
  | update (l : Limits)
  | adaptive (load : ℚ)
  | emergency
  | reset (u : String)
  deriving DecidableEq

/-- Apply one operation to the limiter state. -/
def applyOp (rl : RateLimiter) : RLOp → RateLimiter
  | .check u t => (checkLimit rl u t).2
  | .refillOp u t => (getUserBucket rl u t).2
  | .update l => updateLimits rl l
  | .adaptive load => adaptiveLimits rl load
  | .emergency => enableEmergencyMode rl
  | .reset u => resetUserLimits rl u

/-- Apply a sequence of operations, left to right. -/
def applyOps (rl : RateLimiter) (ops : List RLOp) : RateLimiter :=
  ops.foldl applyOp rl

/-- All three limit fields are nonnegative. -/
def limitsNonneg (l : Limits) : Prop :=
  0 ≤ l.messagesPerMinute ∧ 0 ≤ l.messagesPerHour ∧ 0 ≤ l.burstLimit

/-- Componentwise order on limit records. -/
def limitsLe (a b : Limits) : Prop :=
  a.messagesPerMinute ≤ b.messagesPerMinute ∧
  a.messagesPerHour ≤ b.messagesPerHour ∧
  a.burstLimit ≤ b.burstLimit

/-- Componentwise maximum of limit records. -/
def limitsMax (a b : Limits) : Limits :=
  { messagesPerMinute := max a.messagesPerMinute b.messagesPerMinute
    messagesPerHour := max a.messagesPerHour b.messagesPerHour
    burstLimit := max a.burstLimit b.burstLimit }

/-- The ceilings an operation can install, folded into a running bound. -/
def opCeil (op : RLOp) (M : Limits) : Limits :=
  match op with
  | .update l => limitsMax M l
  | .adaptive load =>
    if load > 4 / 5 then
      limitsMax M { messagesPerMinute := 1, messagesPerHour := 15, burstLimit := 2 }
    else if load < 2 / 5 then
      limitsMax M { messagesPerMinute := 3, messagesPerHour := 30, burstLimit := 4 }
    else M
  | .emergency => limitsMax M { messagesPerMinute := 1, messagesPerHour := 5, burstLimit := 1 }
  | _ => M

/-- The largest ceilings active at any point while running `ops` from an
initial active configuration `M`. -/
def ceilBound (M : Limits) (ops : List RLOp) : Limits :=
  ops.foldl (fun acc op => opCeil op acc) M

/-- `update` operations carry nonnegative ceilings (the only operation
with caller-chosen limits). -/
def opLimitsOK (op : RLOp) : Bool :=
  match op with
  | .update l =>
    decide (0 ≤ l.messagesPerMinute) && decide (0 ≤ l.messagesPerHour) &&
      decide (0 ≤ l.burstLimit)
  | _ => true

/-- A bucket's three token pools lie between 0 and the ceilings `M`. -/
def bucketBounded (M : Limits) (b : Bucket) : Prop :=
  0 ≤ b.minuteTokens ∧ b.minuteTokens ≤ M.messagesPerMinute ∧
  0 ≤ b.hourTokens ∧ b.hourTokens ≤ M.messagesPerHour ∧
  0 ≤ b.burstTokens ∧ b.burstTokens ≤ M.burstLimit

/-- Limiter-state invariant: active limits nonnegative and below `M`,
every stored bucket bounded by `M`. -/
def rlInv (M : Limits) (rl : RateLimiter) : Prop :=
  limitsNonneg rl.limits ∧ limitsLe rl.limits M ∧
  ∀ p ∈ rl.userBuckets, bucketBounded M p.2

/-- Concrete exhausted bucket used to exhibit the denial path of the
status read. -/
def exhaustedBucket : Bucket :=
  { userId := "v", minuteTokens := 0, minuteRefillTime := 0, hourTokens := 0,
    hourRefillTime := 0, burstTokens := 0, createdAt := 0, lastActivity := 0,
    totalRequests := 0, blockedRequests := 0 }

/-- A limiter state holding only the exhausted bucket. -/
def exhaustedState : RateLimiter :=
  { limits := initLimits, userBuckets := [("v", exhaustedBucket)], messageQueues := [] }

/-- First `checkLimit` on a fresh limiter. -/
def check1 (u : String) (t : Int) : Bool × RateLimiter :=
  checkLimit initRateLimiter u t

/-- Second `checkLimit`, immediately after the first. -/
def check2 (u : String) (t : Int) : Bool × RateLimiter :=
  checkLimit (check1 u t).2 u t

/-- Third `checkLimit`, immediately after the second. -/
def check3 (u : String) (t : Int) : Bool × RateLimiter :=
  checkLimit (check2 u t).2 u t

/-- Fourth `checkLimit`, immediately after the third. -/
def check4 (u : String) (t : Int) : Bool × RateLimiter :=
  checkLimit (check3 u t).2 u t

/-- Bucket of an identity whose burst pool is exhausted and whose two
minute tokens are consumed, with `h` hour tokens left; both refill
boundaries sit at time `T`. -/
def minuteProbeBucket (u : String) (T h : Int) : Bucket :=
  { userId := u, minuteTokens := 0, minuteRefillTime := T, hourTokens := h,
    hourRefillTime := T, burstTokens := 0, createdAt := T, lastActivity := T,
    totalRequests := 0, blockedRequests := 0 }

/-- Limiter state holding exactly the minute-probe bucket under the
default limits (`messagesPerMinute = 2`). -/
def minuteProbeState (u : String) (T h : Int) : RateLimiter :=
  { limits := initLimits, userBuckets := [(u, minuteProbeBucket u T h)],
    messageQueues := [] }

theorem lookup_mapSet_self {α : Type} (m : List (String × α)) (k : String)
    (v : α) : List.lookup k (mapSet m k v) = some v := by
  induction m with
  | nil => simp [mapSet, List.lookup]
  | cons p rest ih =>
    rcases p with ⟨k1, v1⟩
    by_cases h : k1 = k
    · subst h; simp [mapSet, List.lookup]
    · have h1 : (k1 == k) = false := beq_eq_false_iff_ne.mpr h
      have h2 : (k == k1) = false := beq_eq_false_iff_ne.mpr (Ne.symm h)
      simp [mapSet, h1, List.lookup, h2, ih]

theorem lookup_mapSet_ne {α : Type} (m : List (String × α)) (k k1 : String)
    (v : α) (h : k1 ≠ k) :
    List.lookup k1 (mapSet m k v) = List.lookup k1 m := by
  have h2 : (k1 == k) = false := beq_eq_false_iff_ne.mpr h
  induction m with
  | nil => simp [mapSet, List.lookup, h2]
  | cons p rest ih =>
    rcases p with ⟨pk, pv⟩
    by_cases hp : pk = k
    · subst hp; simp [mapSet, List.lookup, h2]
    · have h3 : (pk == k) = false := beq_eq_false_iff_ne.mpr hp
      simp [mapSet, h3, List.lookup, ih]

theorem lookup_mapDelete_self {α : Type} (m : List (String × α)) (k : String) :
    List.lookup k (mapDelete m k) = none := by
  induction m with
  | nil => simp [mapDelete]
  | cons p rest ih =>
    rcases p with ⟨pk, pv⟩
    simp only [mapDelete] at ih ⊢
    by_cases h : pk = k
    · subst h; simpa [List.filter_cons] using ih
    · have h1 : (pk == k) = false := beq_eq_false_iff_ne.mpr h
      have h2 : (k == pk) = false := beq_eq_false_iff_ne.mpr (Ne.symm h)
      simp [List.filter_cons, h1, List.lookup, h2, ih]

theorem lookup_mem {α : Type} {m : List (String × α)} {k : String} {v : α}
    (h : List.lookup k m = some v) : (k, v) ∈ m := by
  induction m with
  | nil => simp [List.lookup] at h
  | cons p rest ih =>
    rcases p with ⟨pk, pv⟩
    by_cases hk : k = pk
    · subst hk
      simp [List.lookup] at h
      subst h
      exact List.mem_cons_self _ _
    · have h2 : (k == pk) = false := beq_eq_false_iff_ne.mpr hk
      simp [List.lookup, h2] at h
      exact List.mem_cons_of_mem _ (ih h)

theorem mem_mapSet {α : Type} {m : List (String × α)} {k : String} {v : α}
    {p : String × α} (hp : p ∈ mapSet m k v) : p = (k, v) ∨ p ∈ m := by
  induction m with
  | nil =>
    simp [mapSet] at hp
    left; exact hp
  | cons q rest ih =>
    simp only [mapSet] at hp
    by_cases h : (q.1 == k) = true
    · simp only [h, if_true] at hp
      rcases List.mem_cons.mp hp with h1 | h1
      · left; exact h1
      · right; exact List.mem_cons_of_mem _ h1
    · simp only [h, if_false] at hp
      rcases List.mem_cons.mp hp with h1 | h1
      · right; exact h1 ▸ List.mem_cons_self _ _
      · rcases ih h1 with h2 | h2
        · left; exact h2
        · right; exact List.mem_cons_of_mem _ h2

theorem mem_mapDelete {α : Type} {m : List (String × α)} {k : String}
    {p : String × α} (hp : p ∈ mapDelete m k) : p ∈ m :=
  List.mem_of_mem_filter hp

/-- C8: for every message length (in particular 200) and all random draws
in `[0,1)`, `generateTypingDelay` lands in `[1000, 8000]` ms and
`calculateTypingDelay` lands in `[2000, 8000]` ms. -/
theorem typing_delay_bounds (len : Nat) (r1 r2 r3 : ℚ)
    (h1 : 0 ≤ r1) (h1b : r1 < 1) (h2 : 0 ≤ r2) (h2b : r2 < 1)
    (h3 : 0 ≤ r3) (h3b : r3 < 1) :
    (1000 ≤ generateTypingDelay len r1 r2 ∧ generateTypingDelay len r1 r2 ≤ 8000) ∧
    (2000 ≤ calculateTypingDelay len r3 ∧ calculateTypingDelay len r3 ≤ 8000) := by
  constructor
  · simp only [generateTypingDelay]
    constructor
    · rw [Int.le_floor]
      push_cast
      exact le_min (le_max_right _ _) (by norm_num)
    · have hle :
          min (max ((len : ℚ) * 35 * (1 + (r1 - 1 / 2) * (3 / 10)) + (500 + r2 * 1000)) 1000) 8000 ≤
            ((8000 : ℤ) : ℚ) := by
        push_cast
        exact min_le_right _ _
      have hf := Int.floor_le_floor hle
      rwa [Int.floor_intCast] at hf
  · simp only [calculateTypingDelay]
    exact ⟨le_max_left _ _, max_le (by norm_num) (min_le_left _ _)⟩

theorem typing_delay_bounds_witness :
    1000 ≤ generateTypingDelay 200 0 0 ∧ generateTypingDelay 200 0 0 ≤ 8000 ∧
    2000 ≤ calculateTypingDelay 200 0 ∧ calculateTypingDelay 200 0 ≤ 8000 := by
  obtain ⟨⟨a, b⟩, c, d⟩ :=
    typing_delay_bounds 200 0 0 0 (by norm_num) (by norm_num) (by norm_num)
      (by norm_num) (by norm_num) (by norm_num)
  exact ⟨a, b, c, d⟩

/-- C10: right after `resetUserLimits(u)` deletes the bucket and the
queue, the next `checkLimit(u)` lazily recreates a full bucket and
succeeds, provided the active `burstLimit` is at least 1. -/
theorem reset_then_check_succeeds (rl : RateLimiter) (u : String) (now : Int)
    (h : 1 ≤ rl.limits.burstLimit) :
    (checkLimit (resetUserLimits rl u) u now).1 = true := by
  have hpos : 0 < rl.limits.burstLimit := by omega
  simp [checkLimit, getUserBucket, resetUserLimits, lookup_mapDelete_self,
        createNewBucket, refillBucket, consumeToken, sub_self, Int.zero_fdiv,
        hpos]

theorem reset_then_check_witness :
    1 ≤ initRateLimiter.limits.burstLimit ∧
    (checkLimit (resetUserLimits initRateLimiter "u") "u" 0).1 = true :=
  ⟨by decide, reset_then_check_succeeds initRateLimiter "u" 0 (by decide)⟩

/-- C1: the status read is not effect-free. On a fresh identity the
snapshot reports the full post-refill burst pool (3) and `canSend = true`,
but the stored bucket afterwards holds only 2 burst tokens: computing the
snapshot's `canSend` field runs `checkLimit` and consumes a token. On an
exhausted identity the snapshot read increments `blockedRequests`
from 0 to 1. This contradicts the claim that after `getUserStatus` the
pools equal their post-refill values and `blockedRequests` is unchanged. -/
theorem status_read_consumes_token :
    (getUserStatus initRateLimiter "u" 0).1.burstTokens = 3 ∧
    (getUserStatus initRateLimiter "u" 0).1.canSend = true ∧
    (List.lookup "u" (getUserStatus initRateLimiter "u" 0).2.userBuckets).map
      Bucket.burstTokens = some 2 ∧
    (getUserStatus exhaustedState "v" 0).1.blockedRequests = 0 ∧
    (List.lookup "v" (getUserStatus exhaustedState "v" 0).2.userBuckets).map
      Bucket.blockedRequests = some 1 := by
  decide

/-- C4: starting from a fresh limiter (burst ceiling 3), the first three
`checkLimit` calls at one instant succeed by spending burst tokens only
(minute and hour pools stay at 2 and 20), and the fourth call succeeds by
spending one minute and one hour token, with the burst pool at 0. -/
theorem fresh_bucket_burst_then_steady (u : String) (t : Int) :
    (check1 u t).1 = true ∧
    List.lookup u (check1 u t).2.userBuckets =
      some ⟨u, 2, t, 20, t, 2, t, t, 1, 0⟩ ∧
    (check2 u t).1 = true ∧
    List.lookup u (check2 u t).2.userBuckets =
      some ⟨u, 2, t, 20, t, 1, t, t, 2, 0⟩ ∧
    (check3 u t).1 = true ∧
    List.lookup u (check3 u t).2.userBuckets =
      some ⟨u, 2, t, 20, t, 0, t, t, 3, 0⟩ ∧
    (check4 u t).1 = true ∧
    List.lookup u (check4 u t).2.userBuckets =
      some ⟨u, 1, t, 19, t, 0, t, t, 4, 0⟩ := by
  simp [check1, check2, check3, check4, checkLimit, getUserBucket,
        createNewBucket, refillBucket, consumeToken, mapSet, initRateLimiter,
        initLimits, List.lookup, sub_self, Int.zero_fdiv]

/-- C5: with `messagesPerMinute = 2`, burst exhausted and both minute
tokens consumed (hour tokens positive), a `checkLimit` exactly 60 seconds
after the minute-refill boundary succeeds, while one at 59 seconds after
the boundary fails. -/
theorem minute_refill_boundary (u : String) (T h : Int) (hh : 0 < h) :
    (checkLimit (minuteProbeState u T h) u (T + 60000)).1 = true ∧
    (checkLimit (minuteProbeState u T h) u (T + 59000)).1 = false := by
  have e1 : T + 60000 - T = 60000 := by ring
  have e2 : T + 59000 - T = 59000 := by ring
  have f1 : Int.fdiv 60000 60000 = 1 := by decide
  have f2 : Int.fdiv 60000 3600000 = 0 := by decide
  have f3 : Int.fdiv 59000 60000 = 0 := by decide
  have f4 : Int.fdiv 59000 3600000 = 0 := by decide
  have f5 : Int.fdiv 1 2 = 0 := by decide
  have f6 : min (3 : Int) 0 = 0 := by decide
  have f7 : min (2 : Int) 1 = 1 := by decide
  have hns : ¬(h ≤ 0) := by omega
  simp [checkLimit, getUserBucket, refillBucket, consumeToken,
        minuteProbeState, minuteProbeBucket, initLimits, List.lookup, mapSet,
        e1, e2, f1, f2, f3, f4, f5, f6, f7, hns]

theorem minute_refill_boundary_witness :
    (0 : Int) < 20 ∧
    (checkLimit (minuteProbeState "u" 0 20) "u" (0 + 60000)).1 = true :=
  ⟨by decide, (minute_refill_boundary "u" 0 20 (by decide)).1⟩

/-- If `consumeToken` admits, it spent either one burst token or one
minute plus one hour token. -/
theorem consumeToken_decrements (now : Int) (bb : Bucket)
    (h : (consumeToken now bb).1 = true) :
    (consumeToken now bb).2.burstTokens = bb.burstTokens - 1 ∨
    ((consumeToken now bb).2.minuteTokens = bb.minuteTokens - 1 ∧
      (consumeToken now bb).2.hourTokens = bb.hourTokens - 1) := by
  by_cases h1 : bb.burstTokens > 0
  · left; simp [consumeToken, h1]
  · by_cases h2 : bb.minuteTokens ≤ 0
    · simp [consumeToken, h1, h2] at h
    · by_cases h3 : bb.hourTokens ≤ 0
      · simp [consumeToken, h1, h2, h3] at h
      · right; simp [consumeToken, h1, h2, h3]

/-- C7: enqueuing onto a queue already holding 10 entries first evicts the
oldest entry and then appends the new one: the result is the old tail plus
the new entry at the back, its length is 10, the old head is gone (when
distinct from the surviving entries), and the per-identity capacity bound
of 10 is preserved by every enqueue. -/
theorem queue_eviction_at_capacity (rl : RateLimiter) (u payload : String)
    (now : Int) (hd : QueueEntry) (rest : List QueueEntry)
    (hq : List.lookup u rl.messageQueues = some (hd :: rest))
    (hlen : (hd :: rest).length = 10) :
    List.lookup u (queueMessage rl u payload now).messageQueues =
      some (rest ++ [⟨payload, now, 0⟩]) ∧
    (rest ++ [(⟨payload, now, 0⟩ : QueueEntry)]).length = 10 ∧
    (hd ∉ rest → hd ≠ ⟨payload, now, 0⟩ →
      hd ∉ rest ++ [(⟨payload, now, 0⟩ : QueueEntry)]) ∧
    (∀ rl1 : RateLimiter, ∀ u1 p1 : String, ∀ t1 : Int,
      (∀ u2 q2, List.lookup u2 rl1.messageQueues = some q2 → q2.length ≤ 10) →
      ∀ u2 q2, List.lookup u2 (queueMessage rl1 u1 p1 t1).messageQueues = some q2 →
        q2.length ≤ 10) := by
  have h9 : 9 ≤ rest.length := by
    simp at hlen; omega
  refine ⟨?_, ?_, ?_, ?_⟩
  · simp [queueMessage, hq, lookup_mapSet_self, h9]
  · simp at hlen
    simp [List.length_append, hlen]
  · intro hnm hne
    rw [List.mem_append]
    rintro (hmem | hmem)
    · exact hnm hmem
    · simp at hmem
      exact hne hmem
  · intro rl1 u1 p1 t1 hall u2 q2 hq2
    simp only [queueMessage] at hq2
    by_cases hu : u2 = u1
    · subst hu
      rw [lookup_mapSet_self] at hq2
      obtain rfl := Option.some.inj hq2
      cases hl : List.lookup u2 rl1.messageQueues with
      | none => simp [hl]
      | some q0 =>
        have hb := hall u2 q0 hl
        by_cases hbig : q0.length ≥ 10
        · have ht : q0.tail.length = q0.length - 1 := List.length_tail q0
          simp [hl, hbig, List.length_append, ht]
          omega
        · simp [hl, hbig, List.length_append]
          omega
    · rw [lookup_mapSet_ne _ _ _ _ hu] at hq2
      exact hall u2 q2 hq2

/-- The nine younger entries of a capacity probe queue. -/
def nineTail : List QueueEntry :=
  [⟨"q1", 1, 0⟩, ⟨"q2", 2, 0⟩, ⟨"q3", 3, 0⟩, ⟨"q4", 4, 0⟩, ⟨"q5", 5, 0⟩,
   ⟨"q6", 6, 0⟩, ⟨"q7", 7, 0⟩, ⟨"q8", 8, 0⟩, ⟨"q9", 9, 0⟩]

/-- A limiter state whose identity `u` has a full queue of 10 entries. -/
def capState : RateLimiter :=
  { limits := initLimits, userBuckets := [],
    messageQueues := [("u", ⟨"q0", 0, 0⟩ :: nineTail)] }

theorem queue_eviction_witness :
    List.lookup "u" (queueMessage capState "u" "new" 99).messageQueues =
      some (nineTail ++ [⟨"new", 99, 0⟩]) :=
  (queue_eviction_at_capacity capState "u" "new" 99 ⟨"q0", 0, 0⟩ nineTail
    (by decide) (by decide)).1

/-- C9: during a drain, the quota token consumed by `checkLimit` before a
send attempt is not restored when the send throws: the post-drain bucket
map equals the post-`checkLimit` one (one pool decremented), while the
failed entry stays queued with `retryCount` bumped. -/
theorem failed_send_keeps_consumed_token (rl : RateLimiter) (u : String)
    (send : QueueEntry → Bool) (now : Int) (e : QueueEntry) (b : Bucket)
    (hq : List.lookup u rl.messageQueues = some [e])
    (hb : List.lookup u rl.userBuckets = some b)
    (hsend : send e = false)
    (hretry : e.retryCount + 1 < 3)
    (hok : (checkLimit rl u now).1 = true) :
    (processMessageQueue rl u send now).1 = [] ∧
    List.lookup u (processMessageQueue rl u send now).2.messageQueues =
      some [{ e with retryCount := e.retryCount + 1 }] ∧
    (processMessageQueue rl u send now).2.userBuckets =
      (checkLimit rl u now).2.userBuckets ∧
    List.lookup u (processMessageQueue rl u send now).2.userBuckets =
      some (consumeToken now (refillBucket rl.limits now b)).2 ∧
    ((consumeToken now (refillBucket rl.limits now b)).2.burstTokens =
        (refillBucket rl.limits now b).burstTokens - 1 ∨
      ((consumeToken now (refillBucket rl.limits now b)).2.minuteTokens =
          (refillBucket rl.limits now b).minuteTokens - 1 ∧
        (consumeToken now (refillBucket rl.limits now b)).2.hourTokens =
          (refillBucket rl.limits now b).hourTokens - 1)) := by
  have hr : ¬(e.retryCount + 1 ≥ 3) := by omega
  have hck : (checkLimit rl u now).2.userBuckets =
      mapSet (mapSet rl.userBuckets u (refillBucket rl.limits now b)) u
        (consumeToken now (refillBucket rl.limits now b)).2 := by
    simp [checkLimit, getUserBucket, hb]
  have hcons : (consumeToken now (refillBucket rl.limits now b)).1 = true := by
    simpa [checkLimit, getUserBucket, hb] using hok
  have hpm : processMessageQueue rl u send now =
      ([], { (checkLimit rl u now).2 with
             messageQueues := mapSet (checkLimit rl u now).2.messageQueues u
               [{ e with retryCount := e.retryCount + 1 }] }) := by
    simp [processMessageQueue, hq, drainLoop, hok, hsend, hr]
  refine ⟨by rw [hpm], ?_, by rw [hpm], ?_, consumeToken_decrements _ _ hcons⟩
  · rw [hpm]
    exact lookup_mapSet_self _ _ _
  · rw [hpm]
    simpa [hck] using lookup_mapSet_self
      (mapSet rl.userBuckets u (refillBucket rl.limits now b)) u
      (consumeToken now (refillBucket rl.limits now b)).2

/-- Limiter state with a fresh bucket and a single queued entry for `u`. -/
def failProbeState : RateLimiter :=
  { limits := initLimits,
    userBuckets := [("u", createNewBucket initLimits "u" 0)],
    messageQueues := [("u", [⟨"m", 0, 0⟩])] }

theorem failed_send_witness :
    List.lookup "u"
        (processMessageQueue failProbeState "u" (fun _ => false) 0).2.messageQueues =
      some [⟨"m", 0, 1⟩] :=
  (failed_send_keeps_consumed_token failProbeState "u" (fun _ => false) 0
    ⟨"m", 0, 0⟩ (createNewBucket initLimits "u" 0) (by decide) (by decide) rfl
    (by decide) (by decide)).2.1

/-- Refill never lowers the burst pool and never lifts it above the
ceiling (provided it started at or below the ceiling). -/
theorem refillBucket_burst_bounds (L : Limits) (now : Int) (b : Bucket)
    (h : b.burstTokens ≤ L.burstLimit) :
    b.burstTokens ≤ (refillBucket L now b).burstTokens ∧
    (refillBucket L now b).burstTokens ≤ L.burstLimit := by
  simp only [refillBucket, apply_ite Bucket.burstTokens, ite_self]
  by_cases h3 : b.burstTokens < L.burstLimit ∧
      Int.fdiv (now - b.minuteRefillTime) (60 * 1000) > 0
  · rw [if_pos h3]
    exact ⟨le_min h3.1.le
      (le_add_of_nonneg_right (Int.fdiv_nonneg (le_of_lt h3.2) (by norm_num))),
      min_le_left _ _⟩
  · rw [if_neg h3]
    exact ⟨le_refl _, h⟩

/-- A `checkLimit` on a bucket holding burst tokens (at or below the
ceiling) admits via the burst pool, keeps the active limits, and leaves a
stored bucket whose burst pool dropped by at most one and stayed at or
below the ceiling. -/
theorem checkLimit_burst (rl : RateLimiter) (u : String) (now : Int)
    (b : Bucket) (hb : List.lookup u rl.userBuckets = some b)
    (hpos : 0 < b.burstTokens) (hle : b.burstTokens ≤ rl.limits.burstLimit) :
    (checkLimit rl u now).1 = true ∧
    (checkLimit rl u now).2.limits = rl.limits ∧
    List.lookup u (checkLimit rl u now).2.userBuckets =
      some (consumeToken now (refillBucket rl.limits now b)).2 ∧
    b.burstTokens - 1 ≤ (consumeToken now (refillBucket rl.limits now b)).2.burstTokens ∧
    (consumeToken now (refillBucket rl.limits now b)).2.burstTokens ≤
      rl.limits.burstLimit := by
  obtain ⟨hlo, hhi⟩ := refillBucket_burst_bounds rl.limits now b hle
  have hrpos : 0 < (refillBucket rl.limits now b).burstTokens :=
    lt_of_lt_of_le hpos hlo
  have hcb : consumeToken now (refillBucket rl.limits now b) =
      (true, { refillBucket rl.limits now b with
               totalRequests := (refillBucket rl.limits now b).totalRequests + 1
               lastActivity := now
               burstTokens := (refillBucket rl.limits now b).burstTokens - 1 }) := by
    simp [consumeToken, hrpos]
  refine ⟨?_, ?_, ?_, ?_, ?_⟩
  · simp [checkLimit, getUserBucket, hb, hcb]
  · simp [checkLimit, getUserBucket]
  · simp [checkLimit, getUserBucket, hb, lookup_mapSet_self]
  · rw [hcb]; dsimp only; omega
  · rw [hcb]; dsimp only; omega

/-- When the identity's bucket holds at least as many burst tokens as the
queue is long (and no more than the ceiling), a drain attempts every
entry: the sent list is exactly the entries whose send succeeds, and the
surviving queue is exactly the failing entries with `retryCount` bumped,
minus those that reached the retry cap of 3. -/
theorem drainLoop_all_processed (u : String) (send : QueueEntry → Bool)
    (now : Int) :
    ∀ (q : List QueueEntry) (rl : RateLimiter) (b : Bucket),
      List.lookup u rl.userBuckets = some b →
      (q.length : Int) ≤ b.burstTokens →
      b.burstTokens ≤ rl.limits.burstLimit →
      (drainLoop u send now rl q).1 = q.filter (fun e => send e) ∧
      (drainLoop u send now rl q).2.1 = q.filterMap (fun e =>
        if send e then none
        else if e.retryCount + 1 ≥ 3 then none
        else some { e with retryCount := e.retryCount + 1 }) := by
  intro q
  induction q with
  | nil =>
    intro rl b hb hlen hle
    simp [drainLoop]
  | cons e rest ih =>
    intro rl b hb hlen hle
    simp only [List.length_cons] at hlen
    push_cast at hlen
    have hpos : 0 < b.burstTokens := by omega
    obtain ⟨hc1, hcl, hlk, hblo, hbhi⟩ := checkLimit_burst rl u now b hb hpos hle
    have hlen2 : ((rest.length : Int)) ≤
        (consumeToken now (refillBucket rl.limits now b)).2.burstTokens := by
      omega
    have hle2 : (consumeToken now (refillBucket rl.limits now b)).2.burstTokens ≤
        (checkLimit rl u now).2.limits.burstLimit := by
      rw [hcl]; exact hbhi
    have ihr := ih (checkLimit rl u now).2
      (consumeToken now (refillBucket rl.limits now b)).2 hlk hlen2 hle2
    by_cases hs : send e
    · simp [drainLoop, hc1, hs, ihr.1, ihr.2, List.filterMap_cons]
    · by_cases hr : e.retryCount + 1 ≥ 3
      · simp [drainLoop, hc1, hs, hr, ihr.1, ihr.2, List.filterMap_cons]
      · simp [drainLoop, hc1, hs, hr, ihr.1, ihr.2, List.filterMap_cons]

/-- C6: an entry that enters a drain with `retryCount = 2` and whose send
fails again (its 3rd failure) is removed by that drain without ever being
sent: it appears neither among the successfully sent entries nor (in
original or retry-bumped form) in the queue afterwards. Hypotheses: the
bucket holds enough burst tokens to reach every entry, and no other entry
shares the payload. -/
theorem retry_cap_drops_entry (rl : RateLimiter) (u : String)
    (send : QueueEntry → Bool) (now : Int) (q : List QueueEntry) (b : Bucket)
    (e : QueueEntry)
    (hq : List.lookup u rl.messageQueues = some q)
    (hb : List.lookup u rl.userBuckets = some b)
    (hlen : (q.length : Int) ≤ b.burstTokens)
    (hle : b.burstTokens ≤ rl.limits.burstLimit)
    (he : e ∈ q)
    (hretry : e.retryCount = 2)
    (hsend : send e = false)
    (hpayload : ∀ e1 ∈ q, e1 = e ∨ e1.payload ≠ e.payload) :
    e ∉ (processMessageQueue rl u send now).1 ∧
    ∀ q1, List.lookup u (processMessageQueue rl u send now).2.messageQueues =
      some q1 → e ∉ q1 ∧ { e with retryCount := e.retryCount + 1 } ∉ q1 := by
  have hchar := drainLoop_all_processed u send now q rl b hb hlen hle
  have hne : q.isEmpty = false := by
    cases q with
    | nil => simp at he
    | cons a t => simp [List.isEmpty]
  constructor
  · intro hmem
    have hpm1 : (processMessageQueue rl u send now).1 =
        (drainLoop u send now rl q).1 := by
      simp only [processMessageQueue, hq, hne]
      by_cases hk : ((drainLoop u send now rl q).2.1).isEmpty <;> simp [hk]
    rw [hpm1, hchar.1] at hmem
    obtain ⟨_, hs2⟩ := List.mem_filter.mp hmem
    rw [hsend] at hs2
    exact Bool.false_ne_true hs2
  · intro q1 hq1
    by_cases hk : ((drainLoop u send now rl q).2.1).isEmpty
    · have hnone : List.lookup u
          (processMessageQueue rl u send now).2.messageQueues = none := by
        simp [processMessageQueue, hq, hne, hk, lookup_mapDelete_self]
      rw [hnone] at hq1
      cases hq1
    · have hsome : List.lookup u
          (processMessageQueue rl u send now).2.messageQueues =
          some ((drainLoop u send now rl q).2.1) := by
        simp [processMessageQueue, hq, hne, hk, lookup_mapSet_self]
      rw [hsome] at hq1
      obtain rfl := Option.some.inj hq1
      rw [hchar.2]
      constructor
      · intro hmem
        obtain ⟨a, ha, hfa⟩ := List.mem_filterMap.mp hmem
        by_cases hsa : send a
        · simp [hsa] at hfa
        · by_cases hra : a.retryCount + 1 ≥ 3
          · simp [hsa, hra] at hfa
          · simp only [hsa, hra, if_false, ite_false, Bool.false_eq_true] at hfa
            obtain hfa2 := Option.some.inj hfa
            rcases hpayload a ha with h1 | h1
            · have h2 : a.retryCount = e.retryCount :=
                congrArg QueueEntry.retryCount h1
              have h3 : a.retryCount + 1 = e.retryCount := by
                simpa using congrArg QueueEntry.retryCount hfa2
              omega
            · exact h1 (by simpa using congrArg QueueEntry.payload hfa2)
      · intro hmem
        obtain ⟨a, ha, hfa⟩ := List.mem_filterMap.mp hmem
        by_cases hsa : send a
        · simp [hsa] at hfa
        · by_cases hra : a.retryCount + 1 ≥ 3
          · simp [hsa, hra] at hfa
          · simp only [hsa, hra, if_false, ite_false, Bool.false_eq_true] at hfa
            obtain hfa2 := Option.some.inj hfa
            rcases hpayload a ha with h1 | h1
            · rw [h1] at hra
              omega
            · exact h1 (by simpa using congrArg QueueEntry.payload hfa2)

/-- Limiter state with a fresh bucket and one twice-failed queued entry. -/
def capProbeState : RateLimiter :=
  { limits := initLimits,
    userBuckets := [("u", createNewBucket initLimits "u" 0)],
    messageQueues := [("u", [⟨"m", 0, 2⟩])] }

theorem retry_cap_witness :
    (⟨"m", 0, 2⟩ : QueueEntry) ∉
      (processMessageQueue capProbeState "u" (fun _ => false) 0).1 :=
  (retry_cap_drops_entry capProbeState "u" (fun _ => false) 0 [⟨"m", 0, 2⟩]
    (createNewBucket initLimits "u" 0) ⟨"m", 0, 2⟩ (by decide) (by decide)
    (by decide) (by decide) (by decide) (by decide) rfl (by decide)).1

/-- Limiter state with a fresh bucket and two queued entries for `u`. -/
def fifoProbeState : RateLimiter :=
  { limits := initLimits,
    userBuckets := [("u", createNewBucket initLimits "u" 0)],
    messageQueues := [("u", [⟨"m0", 0, 0⟩, ⟨"m1", 0, 0⟩])] }

/-- C3 counterexample: with two queued messages and a send capability that
throws on the first ("m0") but delivers the second ("m1"), a single drain
sends the later-enqueued "m1" while the earlier-enqueued "m0" is still
present in the queue afterwards (with `retryCount` bumped to 1): on a send
error the loop does not stop, so later entries skip ahead of a failed
earlier entry. Denial is the only case that breaks the loop. -/
theorem drain_sends_later_while_earlier_queued :
    (processMessageQueue fifoProbeState "u" (fun e => e.payload == "m1") 0).1 =
      [⟨"m1", 0, 0⟩] ∧
    List.lookup "u"
        (processMessageQueue fifoProbeState "u"
          (fun e => e.payload == "m1") 0).2.messageQueues =
      some [⟨"m0", 0, 1⟩] := by
  decide

/-- When every send succeeds, a drain pass sends a front segment of the
queue (as far as admission allows) and keeps exactly the corresponding
tail, in order. -/
theorem drainLoop_take_drop (u : String) (send : QueueEntry → Bool)
    (now : Int) (hs : ∀ e, send e = true) :
    ∀ (q : List QueueEntry) (rl : RateLimiter),
      ∃ k, k ≤ q.length ∧ (drainLoop u send now rl q).1 = q.take k ∧
        (drainLoop u send now rl q).2.1 = q.drop k := by
  intro q
  induction q with
  | nil =>
    intro rl
    exact ⟨0, by simp [drainLoop]⟩
  | cons e rest ih =>
    intro rl
    by_cases hc : (checkLimit rl u now).1 = true
    · obtain ⟨k, hk, h1, h2⟩ := ih (checkLimit rl u now).2
      refine ⟨k + 1, by simp only [List.length_cons]; omega, ?_, ?_⟩
      · simp [drainLoop, hc, hs e, h1]
      · simp [drainLoop, hc, hs e, h2]
    · refine ⟨0, Nat.zero_le _, ?_, ?_⟩
      · simp [drainLoop, hc]
      · simp [drainLoop, hc]

/-- C3 amended: for a single identity, a drain delivers queued messages in
enqueue order provided every attempted send succeeds (the source only
guarantees head-of-line blocking on admission denial, not on send
failure): the sent messages are exactly a front segment of the queue and
the remaining queue is the corresponding tail. -/
theorem drain_fifo_of_sends_ok (rl : RateLimiter) (u : String)
    (send : QueueEntry → Bool) (now : Int) (q : List QueueEntry)
    (hq : List.lookup u rl.messageQueues = some q) (hne : q ≠ [])
    (hs : ∀ e, send e = true) :
    ∃ k, k ≤ q.length ∧
      (processMessageQueue rl u send now).1 = q.take k ∧
      ((q.drop k = [] ∧
        List.lookup u (processMessageQueue rl u send now).2.messageQueues =
          none) ∨
       (q.drop k ≠ [] ∧
        List.lookup u (processMessageQueue rl u send now).2.messageQueues =
          some (q.drop k))) := by
  obtain ⟨k, hk, h1, h2⟩ := drainLoop_take_drop u send now hs q rl
  have hne2 : q.isEmpty = false := by
    cases q with
    | nil => exact absurd rfl hne
    | cons a t => simp [List.isEmpty]
  refine ⟨k, hk, ?_, ?_⟩
  · simp only [processMessageQueue, hq, hne2]
    by_cases hk2 : ((drainLoop u send now rl q).2.1).isEmpty <;> simp [hk2, h1]
  · by_cases hk2 : ((drainLoop u send now rl q).2.1).isEmpty
    · left
      have hd : q.drop k = [] := by
        rw [← h2]
        simpa using hk2
      refine ⟨hd, ?_⟩
      simp [processMessageQueue, hq, hne2, hk2, lookup_mapDelete_self]
    · right
      have hd : q.drop k ≠ [] := by
        intro hcon
        apply hk2
        rw [h2, hcon]
        rfl
      refine ⟨hd, ?_⟩
      have hlk : List.lookup u
          (processMessageQueue rl u send now).2.messageQueues =
          some ((drainLoop u send now rl q).2.1) := by
        simp [processMessageQueue, hq, hne2, hk2, lookup_mapSet_self]
      rw [hlk, h2]

/-- Limiter state with a fresh bucket and one queued entry for `u`. -/
def fifoOkState : RateLimiter :=
  { limits := initLimits,
    userBuckets := [("u", createNewBucket initLimits "u" 0)],
    messageQueues := [("u", [⟨"a", 0, 0⟩])] }

theorem drain_fifo_witness :
    ∃ k, k ≤ ([(⟨"a", 0, 0⟩ : QueueEntry)] : List QueueEntry).length ∧
      (processMessageQueue fifoOkState "u" (fun _ => true) 0).1 =
        ([(⟨"a", 0, 0⟩ : QueueEntry)] : List QueueEntry).take k ∧
      ((([(⟨"a", 0, 0⟩ : QueueEntry)] : List QueueEntry).drop k = [] ∧
        List.lookup "u"
          (processMessageQueue fifoOkState "u" (fun _ => true) 0).2.messageQueues =
          none) ∨
       (([(⟨"a", 0, 0⟩ : QueueEntry)] : List QueueEntry).drop k ≠ [] ∧
        List.lookup "u"
          (processMessageQueue fifoOkState "u" (fun _ => true) 0).2.messageQueues =
          some (([(⟨"a", 0, 0⟩ : QueueEntry)] : List QueueEntry).drop k))) :=
  drain_fifo_of_sends_ok fifoOkState "u" (fun _ => true) 0 [⟨"a", 0, 0⟩]
    (by decide) (by decide) (fun e => rfl)

theorem limitsLe_trans {a b c : Limits} (h1 : limitsLe a b)
    (h2 : limitsLe b c) : limitsLe a c := by
  obtain ⟨x1, x2, x3⟩ := h1
  obtain ⟨y1, y2, y3⟩ := h2
  exact ⟨le_trans x1 y1, le_trans x2 y2, le_trans x3 y3⟩

theorem limitsLe_max_left (M l : Limits) : limitsLe M (limitsMax M l) := by
  unfold limitsLe limitsMax
  exact ⟨le_max_left _ _, le_max_left _ _, le_max_left _ _⟩

theorem limitsLe_max_right (M l : Limits) : limitsLe l (limitsMax M l) := by
  unfold limitsLe limitsMax
  exact ⟨le_max_right _ _, le_max_right _ _, le_max_right _ _⟩

theorem bucketBounded_mono {M M1 : Limits} {b : Bucket}
    (h : bucketBounded M b) (hle : limitsLe M M1) : bucketBounded M1 b := by
  obtain ⟨a1, a2, a3, a4, a5, a6⟩ := h
  obtain ⟨y1, y2, y3⟩ := hle
  exact ⟨a1, le_trans a2 y1, a3, le_trans a4 y2, a5, le_trans a6 y3⟩

theorem rlInv_mono {M M1 : Limits} {rl : RateLimiter} (h : rlInv M rl)
    (hle : limitsLe M M1) : rlInv M1 rl :=
  ⟨h.1, limitsLe_trans h.2.1 hle,
    fun p hp => bucketBounded_mono (h.2.2 p hp) hle⟩

/-- Refilling keeps every pool between 0 and the ceilings `M` bounding the
active limits `L`. -/
theorem refillBucket_bounded (L M : Limits) (now : Int) (b : Bucket)
    (hL : limitsNonneg L) (hLM : limitsLe L M) (hb : bucketBounded M b) :
    bucketBounded M (refillBucket L now b) := by
  obtain ⟨l1, l2, l3⟩ := hL
  obtain ⟨m1, m2, m3⟩ := hLM
  obtain ⟨a1, a2, a3, a4, a5, a6⟩ := hb
  have hmg : 0 < Int.fdiv (now - b.minuteRefillTime) (60 * 1000) →
      0 ≤ Int.fdiv (Int.fdiv (now - b.minuteRefillTime) (60 * 1000)) 2 :=
    fun h => Int.fdiv_nonneg (le_of_lt h) (by norm_num)
  have hhg : 0 < Int.fdiv (now - b.hourRefillTime) (60 * 60 * 1000) →
      0 ≤ Int.fdiv (now - b.hourRefillTime) (60 * 60 * 1000) * L.messagesPerHour :=
    fun h => mul_nonneg (le_of_lt h) l2
  simp only [refillBucket]
  by_cases h1 : Int.fdiv (now - b.minuteRefillTime) (60 * 1000) > 0 <;>
    by_cases h2 : Int.fdiv (now - b.hourRefillTime) (60 * 60 * 1000) > 0 <;>
      simp only [h1, h2, if_true, if_false, ite_true, ite_false, and_true,
        and_false] <;>
      first
        | (have hx1 := hmg h1
           first
             | (have hx2 := hhg h2
                split_ifs with h3 <;> (simp only [bucketBounded]; omega))
             | (split_ifs with h3 <;> (simp only [bucketBounded]; omega)))
        | (have hx2 := hhg h2
           simp only [bucketBounded]; omega)
        | (simp only [bucketBounded]; omega)

theorem createNewBucket_bounded (L M : Limits) (u : String) (now : Int)
    (hL : limitsNonneg L) (hLM : limitsLe L M) :
    bucketBounded M (createNewBucket L u now) := by
  obtain ⟨l1, l2, l3⟩ := hL
  obtain ⟨m1, m2, m3⟩ := hLM
  simp only [bucketBounded, createNewBucket]
  omega

theorem consumeToken_bounded (now : Int) (M : Limits) (b : Bucket)
    (hb : bucketBounded M b) : bucketBounded M (consumeToken now b).2 := by
  obtain ⟨a1, a2, a3, a4, a5, a6⟩ := hb
  simp only [consumeToken]
  split_ifs with h1 h2 h3 <;> (simp only [bucketBounded]; omega)

theorem getUserBucket_inv (M : Limits) (rl : RateLimiter) (u : String)
    (now : Int) (h : rlInv M rl) :
    rlInv M (getUserBucket rl u now).2 ∧
    bucketBounded M (getUserBucket rl u now).1 := by
  obtain ⟨hn, hle, hall⟩ := h
  have hb0 : bucketBounded M
      (match List.lookup u rl.userBuckets with
        | some b => b
        | none => createNewBucket rl.limits u now) := by
    cases hl : List.lookup u rl.userBuckets with
    | some b => exact hall (u, b) (lookup_mem hl)
    | none => exact createNewBucket_bounded rl.limits M u now hn hle
  have hbr : bucketBounded M (refillBucket rl.limits now
      (match List.lookup u rl.userBuckets with
        | some b => b
        | none => createNewBucket rl.limits u now)) :=
    refillBucket_bounded rl.limits M now _ hn hle hb0
  refine ⟨⟨hn, hle, ?_⟩, hbr⟩
  intro p hp
  have he : (getUserBucket rl u now).2.userBuckets =
      mapSet rl.userBuckets u (refillBucket rl.limits now
        (match List.lookup u rl.userBuckets with
          | some b => b
          | none => createNewBucket rl.limits u now)) := rfl
  rw [he] at hp
  rcases mem_mapSet hp with h1 | h1
  · rw [h1]
    exact hbr
  · exact hall p h1

theorem checkLimit_inv (M : Limits) (rl : RateLimiter) (u : String)
    (now : Int) (h : rlInv M rl) : rlInv M (checkLimit rl u now).2 := by
  obtain ⟨hg, hbb⟩ := getUserBucket_inv M rl u now h
  obtain ⟨hn, hle, hall⟩ := hg
  refine ⟨hn, hle, ?_⟩
  intro p hp
  have he : (checkLimit rl u now).2.userBuckets =
      mapSet (getUserBucket rl u now).2.userBuckets u
        (consumeToken now (getUserBucket rl u now).1).2 := rfl
  rw [he] at hp
  rcases mem_mapSet hp with h1 | h1
  · rw [h1]
    exact consumeToken_bounded now M _ hbb
  · exact hall p h1

theorem applyOp_inv (M : Limits) (rl : RateLimiter) (op : RLOp)
    (h : rlInv M rl) (hop : opLimitsOK op = true) :
    rlInv (opCeil op M) (applyOp rl op) := by
  cases op with
  | check u t => exact checkLimit_inv M rl u t h
  | refillOp u t => exact (getUserBucket_inv M rl u t h).1
  | update l =>
    simp only [opLimitsOK, Bool.and_eq_true, decide_eq_true_eq] at hop
    obtain ⟨⟨n1, n2⟩, n3⟩ := hop
    refine ⟨⟨n1, n2, n3⟩, limitsLe_max_right M l, ?_⟩
    intro p hp
    exact bucketBounded_mono (h.2.2 p hp) (limitsLe_max_left M l)
  | adaptive load =>
    by_cases hl1 : load > 4 / 5
    · simp only [applyOp, adaptiveLimits, opCeil, hl1, if_true, ite_true]
      refine ⟨by simp [limitsNonneg, updateLimits], ?_, ?_⟩
      · exact limitsLe_max_right M _
      · intro p hp
        exact bucketBounded_mono (h.2.2 p hp) (limitsLe_max_left M _)
    · by_cases hl2 : load < 2 / 5
      · simp only [applyOp, adaptiveLimits, opCeil, hl1, hl2, if_true,
          ite_true, if_false, ite_false]
        refine ⟨by simp [limitsNonneg, updateLimits], ?_, ?_⟩
        · exact limitsLe_max_right M _
        · intro p hp
          exact bucketBounded_mono (h.2.2 p hp) (limitsLe_max_left M _)
      · simp only [applyOp, adaptiveLimits, opCeil, hl1, hl2, if_false,
          ite_false]
        exact h
  | emergency =>
    refine ⟨by simp [limitsNonneg, applyOp, updateLimits, enableEmergencyMode],
      ?_, ?_⟩
    · exact limitsLe_max_right M _
    · intro p hp
      exact bucketBounded_mono (h.2.2 p hp) (limitsLe_max_left M _)
  | reset u =>
    refine ⟨h.1, h.2.1, ?_⟩
    intro p hp
    exact h.2.2 p (mem_mapDelete hp)

theorem applyOps_inv : ∀ (ops : List RLOp) (rl : RateLimiter) (M : Limits),
    rlInv M rl → (∀ op ∈ ops, opLimitsOK op = true) →
    rlInv (ceilBound M ops) (applyOps rl ops) := by
  intro ops
  induction ops with
  | nil =>
    intro rl M h hops
    simpa [applyOps, ceilBound] using h
  | cons op rest ih =>
    intro rl M h hops
    have h1 := applyOp_inv M rl op h (hops op (List.mem_cons_self _ _))
    have h2 := ih (applyOp rl op) (opCeil op M) h1
      (fun o ho => hops o (List.mem_cons_of_mem _ ho))
    simpa [applyOps, ceilBound] using h2

/-- C2 amended: after any sequence of limiter operations (with
nonnegative ceilings in every explicit `updateLimits`), every stored
bucket's three pools stay at or above 0 and at or below the componentwise
maximum of every configuration that has been active — the bound by the
currently active ceilings (as claimed) fails once an update lowers them. -/
theorem token_bounds_of_ops (ops : List RLOp)
    (hops : ∀ op ∈ ops, opLimitsOK op = true) (u : String) (b : Bucket)
    (hb : List.lookup u (applyOps initRateLimiter ops).userBuckets = some b) :
    bucketBounded (ceilBound initLimits ops) b := by
  have h0 : rlInv initLimits initRateLimiter := by
    refine ⟨?_, ?_, ?_⟩
    · simp [limitsNonneg, initRateLimiter, initLimits]
    · simp [limitsLe, initRateLimiter]
    · intro p hp
      simp [initRateLimiter] at hp
  have hinv := applyOps_inv ops initRateLimiter initLimits h0 hops
  exact hinv.2.2 (u, b) (lookup_mem hb)

theorem token_bounds_witness :
    (∀ op ∈ [RLOp.check "u" 0], opLimitsOK op = true) ∧
    bucketBounded (ceilBound initLimits [RLOp.check "u" 0])
      ⟨"u", 2, 0, 20, 0, 2, 0, 0, 1, 0⟩ :=
  ⟨by decide, token_bounds_of_ops [RLOp.check "u" 0] (by decide) "u"
    ⟨"u", 2, 0, 20, 0, 2, 0, 0, 1, 0⟩ (by decide)⟩

/-- C2 counterexample: one `checkLimit` (leaving 2 burst tokens) followed
by `enableEmergencyMode` (active `burstLimit` 1) leaves a stored bucket
whose `burstTokens` strictly exceed the currently active tier ceiling,
refuting the claim that the pools never exceed the active ceilings after
every operation sequence. -/
theorem token_exceeds_ceiling_after_emergency :
    ∃ b, List.lookup "u"
        (applyOps initRateLimiter
          [RLOp.check "u" 0, RLOp.emergency]).userBuckets = some b ∧
      (applyOps initRateLimiter
        [RLOp.check "u" 0, RLOp.emergency]).limits.burstLimit <
        b.burstTokens :=
  ⟨⟨"u", 2, 0, 20, 0, 2, 0, 0, 1, 0⟩, by decide, by decide⟩
